import Mathlib

/-!
Verification of the Open-Instruct structured-generation core against its
natural-language specification.

The definitions below are shallow embeddings of the Python source:

* `CircuitBreaker` and its operations embed
  `src/backend/src/core/error_handlers.py` (`CircuitBreaker.call`,
  `_on_success`, `_on_failure`, `_should_attempt_reset`,
  `_get_remaining_timeout`).  Wall-clock time is modelled as a natural
  number of seconds passed explicitly to each call; the wrapped backend
  function is modelled by its outcome, an `Except E A` value.
* `retryFrom` / `retry_with_exponential_backoff` embed the retry decorator
  from the same file; the decorated function is modelled as a map from the
  attempt index to its outcome, and the slept delays are recorded in the
  trace.
* `validate_verb`, `get_all_verbs` (heap model) and the quiz-question
  constructor embed `src/backend/src/core/models.py`.
* `validate_json_output` embeds the three-tier JSON-extraction validator
  (`tests/spikes/hello_world.py`), parameterised by the external
  `json.loads` parser.
* `Architect.forward` / `generate_objectives` embed
  `src/backend/src/modules/architect.py`.
-/

/-- Circuit breaker states (`CircuitState` in `error_handlers.py`);
`opened` embeds the source's `OPEN`. -/
inductive CircuitState where
  | closed
  | opened
  | halfOpen
deriving DecidableEq, Repr

/-- State of one `CircuitBreaker` instance (`error_handlers.py`).  The three
configuration fields are set at construction; the four mutable fields mirror
`self.state`, `self.failures`, `self.last_failure_time`,
`self.half_open_success_count`.  Timestamps are seconds as naturals. -/
structure CircuitBreaker where
  failure_threshold : Nat
  timeout_seconds : Nat
  half_open_attempts : Nat
  state : CircuitState
  failures : Nat
  last_failure_time : Option Nat
  half_open_success_count : Nat
deriving DecidableEq, Repr

/-- `CircuitBreaker.__init__`: fresh breaker in the CLOSED state. -/
def CircuitBreaker.init (thr timeout hoa : Nat) : CircuitBreaker :=
  { failure_threshold := thr
    timeout_seconds := timeout
    half_open_attempts := hoa
    state := .closed
    failures := 0
    last_failure_time := none
    half_open_success_count := 0 }

/-- `CircuitBreaker._should_attempt_reset`: true when no failure was recorded
or at least `timeout_seconds` have elapsed since the recorded failure. -/
def shouldAttemptReset (b : CircuitBreaker) (now : Nat) : Bool :=
  match b.last_failure_time with
  | none => true
  | some t => b.timeout_seconds ≤ now - t

/-- `CircuitBreaker._get_remaining_timeout`: seconds left before the breaker
may attempt a reset (clamped at 0, which natural subtraction provides). -/
def getRemainingTimeout (b : CircuitBreaker) (now : Nat) : Nat :=
  match b.last_failure_time with
  | none => 0
  | some t => b.timeout_seconds - (now - t)

/-- `CircuitBreaker._on_success`: in HALF_OPEN, count the success and close
the breaker (resetting both counters) once `half_open_attempts` successes
were seen; otherwise reset the consecutive-failure counter. -/
def onSuccess (b : CircuitBreaker) : CircuitBreaker :=
  if b.state = .halfOpen then
    if b.half_open_attempts ≤ b.half_open_success_count + 1 then
      { b with state := .closed, failures := 0, half_open_success_count := 0 }
    else
      { b with half_open_success_count := b.half_open_success_count + 1 }
  else
    { b with failures := 0 }

/-- `CircuitBreaker._on_failure`: count the failure, record its time, and
open the breaker when the threshold is reached. -/
def onFailure (b : CircuitBreaker) (now : Nat) : CircuitBreaker :=
  if b.failure_threshold ≤ b.failures + 1 then
    { b with failures := b.failures + 1, last_failure_time := some now,
             state := .opened }
  else
    { b with failures := b.failures + 1, last_failure_time := some now }

/-- Outcome of one `CircuitBreaker.call`: the rejection raised while OPEN
(`CircuitBreakerOpenError` with its remaining cooldown), the wrapped
function's return value, or the wrapped function's re-raised exception. -/
inductive CallResult (E A : Type) where
  | rejected (remaining : Nat)
  | returned (a : A)
  | raised (e : E)
deriving DecidableEq, Repr

/-- Trace of one `CircuitBreaker.call`: its result, whether the wrapped
function was actually executed, the breaker state at the moment it was
executed (if it was), and the breaker state after the call. -/
structure CallTrace (E A : Type) where
  result : CallResult E A
  invoked : Bool
  triedIn : Option CircuitState
  final : CircuitBreaker
deriving DecidableEq, Repr

/-- The `try`/`except` body of `CircuitBreaker.call`: run the wrapped
function, apply `_on_success` on a normal return and `_on_failure` on an
exception, re-raising the original exception unchanged. -/
def execCall (b : CircuitBreaker) (now : Nat) (outcome : Except E A) :
    CallTrace E A :=
  match outcome with
  | .ok a => ⟨.returned a, true, some b.state, onSuccess b⟩
  | .error e => ⟨.raised e, true, some b.state, onFailure b now⟩

/-- `CircuitBreaker.call`: while OPEN, either lazily transition to HALF_OPEN
(resetting the half-open success counter) and try the call, or reject it
with the remaining cooldown without invoking the wrapped function. -/
def CircuitBreaker.call (b : CircuitBreaker) (now : Nat)
    (outcome : Except E A) : CallTrace E A :=
  if b.state = .opened then
    if shouldAttemptReset b now then
      execCall { b with state := .halfOpen, half_open_success_count := 0 }
        now outcome
    else
      ⟨.rejected (getRemainingTimeout b now), false, none, b⟩
  else
    execCall b now outcome

/-- Run a sequence of calls through the breaker; each event is the call time
paired with the wrapped function's outcome. -/
def runCalls (b : CircuitBreaker) : List (Nat × Except Unit Unit) → CircuitBreaker
  | [] => b
  | (now, o) :: rest => runCalls ((b.call now o).final) rest

/-- Run a sequence of failing calls at the given times. -/
def failCalls (b : CircuitBreaker) (ts : List Nat) : CircuitBreaker :=
  runCalls b (ts.map fun t => (t, Except.error ()))

/-- The configuration fields of a breaker are never modified by a call. -/
theorem call_preserves_config (b : CircuitBreaker) (now : Nat)
    (outcome : Except E A) :
    (b.call now outcome).final.failure_threshold = b.failure_threshold ∧
    (b.call now outcome).final.timeout_seconds = b.timeout_seconds ∧
    (b.call now outcome).final.half_open_attempts = b.half_open_attempts := by
  unfold CircuitBreaker.call execCall onSuccess onFailure
  cases outcome <;>
    repeat' split <;> simp_all

/-- A failing call from CLOSED below threshold: stay CLOSED, count it. -/
theorem call_fail_closed_below (b : CircuitBreaker) (now : Nat) (e : E)
    (hs : b.state = .closed) (h : b.failures + 1 < b.failure_threshold) :
    (b.call now (Except.error e) : CallTrace E Unit).final =
      { b with failures := b.failures + 1, last_failure_time := some now } := by
  unfold CircuitBreaker.call execCall onFailure
  rw [hs]
  simp [Nat.not_le.mpr h]

/-- A failing call from CLOSED that reaches the threshold: open the breaker. -/
theorem call_fail_closed_reach (b : CircuitBreaker) (now : Nat) (e : E)
    (hs : b.state = .closed) (h : b.failure_threshold ≤ b.failures + 1) :
    (b.call now (Except.error e) : CallTrace E Unit).final =
      { b with failures := b.failures + 1, last_failure_time := some now,
               state := .opened } := by
  unfold CircuitBreaker.call execCall onFailure
  rw [hs]
  simp [h]

/-- A streak of failing calls that stays strictly below the threshold leaves
the breaker CLOSED with the failures counted. -/
theorem failCalls_closed (ts : List Nat) : ∀ b : CircuitBreaker,
    b.state = .closed → b.failures + ts.length < b.failure_threshold →
    (failCalls b ts).state = .closed ∧
    (failCalls b ts).failures = b.failures + ts.length := by
  induction ts with
  | nil => intro b hs _; exact ⟨hs, rfl⟩
  | cons t rest ih =>
    intro b hs h
    have hlt : b.failures + 1 < b.failure_threshold := by
      simp only [List.length_cons] at h; omega
    have hstep := call_fail_closed_below (E := Unit) b t () hs hlt
    have hrun : failCalls b (t :: rest) =
        failCalls { b with failures := b.failures + 1,
                           last_failure_time := some t } rest := by
      simp only [failCalls, List.map_cons, runCalls, hstep]
    rw [hrun]
    have hres := ih { b with failures := b.failures + 1,
                             last_failure_time := some t }
      hs (by simp only [List.length_cons] at h; dsimp only; omega)
    refine ⟨hres.1, ?_⟩
    rw [hres.2]
    simp only [List.length_cons]
    omega

/-- A streak of failing calls whose length exactly reaches the threshold
opens the breaker and records the last failure time. -/
theorem failCalls_opens (ts : List Nat) (hne : ts ≠ []) :
    ∀ b : CircuitBreaker, b.state = .closed →
    b.failures + ts.length = b.failure_threshold →
    (failCalls b ts).state = .opened ∧
    (failCalls b ts).failures = b.failure_threshold ∧
    (failCalls b ts).last_failure_time = some (ts.getLast hne) := by
  induction ts with
  | nil => exact absurd rfl hne
  | cons t rest ih =>
    intro b hs h
    match rest, ih with
    | [], _ =>
      have hreach : b.failure_threshold ≤ b.failures + 1 := by
        simp only [List.length_cons, List.length_nil] at h; omega
      have hstep := call_fail_closed_reach (E := Unit) b t () hs hreach
      have hrun : failCalls b [t] =
          { b with failures := b.failures + 1, last_failure_time := some t,
                   state := .opened } := by
        simp only [failCalls, List.map_cons, List.map_nil, runCalls, hstep]
      rw [hrun]
      refine ⟨rfl, ?_, rfl⟩
      simp only [List.length_cons, List.length_nil] at h
      dsimp only
      omega
    | r :: rest', ih =>
      have hlt : b.failures + 1 < b.failure_threshold := by
        simp only [List.length_cons] at h; omega
      have hstep := call_fail_closed_below (E := Unit) b t () hs hlt
      have hrun : failCalls b (t :: r :: rest') =
          failCalls { b with failures := b.failures + 1,
                             last_failure_time := some t } (r :: rest') := by
        simp only [failCalls, List.map_cons, runCalls, hstep]
      rw [hrun]
      have hres := ih (by simp)
        { b with failures := b.failures + 1, last_failure_time := some t }
        hs (by simp only [List.length_cons] at h ⊢; omega)
      refine ⟨hres.1, ?_, ?_⟩
      · rw [hres.2.1]
      · rw [hres.2.2]
        simp [List.getLast]

/-- The rejection path of `CircuitBreaker.call`: while OPEN within the
cooldown window, any call is rejected with the remaining cooldown and the
wrapped function is not invoked. -/
theorem call_open_rejects (b : CircuitBreaker) (now t : Nat)
    (outcome : Except E A) (hs : b.state = .opened)
    (hl : b.last_failure_time = some t) (_hle : t ≤ now)
    (hcool : now - t < b.timeout_seconds) :
    b.call now outcome =
      ⟨.rejected (b.timeout_seconds - (now - t)), false, none, b⟩ ∧
    0 < b.timeout_seconds - (now - t) := by
  have hreset : shouldAttemptReset b now = false := by
    simp [shouldAttemptReset, hl, Nat.not_le.mpr hcool]
  constructor
  · unfold CircuitBreaker.call
    rw [hs, if_pos rfl, hreset]
    simp [getRemainingTimeout, hl]
  · omega

/-- The invariant justifying the spec's "already at/over threshold" remark:
in OPEN or HALF_OPEN the failure counter has reached the threshold. -/
def BreakerInv (b : CircuitBreaker) : Prop :=
  (b.state = .opened ∨ b.state = .halfOpen) →
    b.failure_threshold ≤ b.failures

/-- `_on_failure` preserves `BreakerInv`. -/
theorem breakerInv_onFailure (b : CircuitBreaker) (now : Nat)
    (h : BreakerInv b) : BreakerInv (onFailure b now) := by
  unfold BreakerInv at h ⊢
  unfold onFailure
  split
  next hc => intro _; exact hc
  next hc =>
    intro hst
    have hb : b.state = .opened ∨ b.state = .halfOpen := hst
    have := h hb
    dsimp only
    omega

/-- `_on_success` preserves `BreakerInv` when not called from OPEN (the
gate in `call` guarantees this). -/
theorem breakerInv_onSuccess (b : CircuitBreaker)
    (hno : b.state ≠ .opened) (h : BreakerInv b) :
    BreakerInv (onSuccess b) := by
  unfold BreakerInv at h ⊢
  unfold onSuccess
  split
  next hho =>
    split
    · rintro (hst | hst) <;> simp at hst
    · intro _
      exact h (Or.inr hho)
  next hho =>
    rintro (hst | hst)
    · exact absurd (hst : b.state = .opened) hno
    · exact absurd (hst : b.state = .halfOpen) hho

/-- One call through the breaker preserves `BreakerInv`. -/
theorem breakerInv_call (b : CircuitBreaker) (now : Nat)
    (outcome : Except E A) (h : BreakerInv b) :
    BreakerInv ((b.call now outcome).final) := by
  unfold CircuitBreaker.call
  split
  next hopen =>
    split
    · have hf : b.failure_threshold ≤ b.failures := h (Or.inl hopen)
      have hinv : BreakerInv
          { b with state := CircuitState.halfOpen,
                   half_open_success_count := 0 } := fun _ => hf
      cases outcome with
      | ok a => exact breakerInv_onSuccess _ (by simp) hinv
      | error e => exact breakerInv_onFailure _ now hinv
    · exact h
  next hno =>
    cases outcome with
    | ok a => exact breakerInv_onSuccess _ hno h
    | error e => exact breakerInv_onFailure _ now h

/-- A fresh breaker satisfies `BreakerInv`. -/
theorem breakerInv_init (N T H : Nat) : BreakerInv (CircuitBreaker.init N T H) := by
  intro h
  rcases h with h | h <;> simp [CircuitBreaker.init] at h

/-- `BreakerInv` holds along any run of calls. -/
theorem breakerInv_runCalls (evs : List (Nat × Except Unit Unit)) :
    ∀ b : CircuitBreaker, BreakerInv b → BreakerInv (runCalls b evs) := by
  induction evs with
  | nil => intro b h; exact h
  | cons ev rest ih =>
    intro b h
    exact ih _ (breakerInv_call b ev.1 ev.2 h)

/-- C2: starting Closed with failure threshold N, the breaker is still Closed
after fewer than N consecutive failed calls, is Open with the last failure
time recorded after exactly N, and while Open any call made before
`timeout_seconds` have elapsed since the recorded failure time is rejected
with the (positive) remaining cooldown without the wrapped backend function
being invoked. -/
theorem breaker_opens_after_threshold_and_rejects (N T H : Nat) :
    (∀ ts : List Nat, ts.length < N →
      (failCalls (CircuitBreaker.init N T H) ts).state = .closed) ∧
    (∀ (ts : List Nat) (hne : ts ≠ []), ts.length = N →
      (failCalls (CircuitBreaker.init N T H) ts).state = .opened ∧
      (failCalls (CircuitBreaker.init N T H) ts).last_failure_time =
        some (ts.getLast hne)) ∧
    (∀ (E A : Type) (b : CircuitBreaker) (now t : Nat) (outcome : Except E A),
      b.state = .opened → b.last_failure_time = some t → t ≤ now →
      now - t < b.timeout_seconds →
      b.call now outcome =
        ⟨.rejected (b.timeout_seconds - (now - t)), false, none, b⟩ ∧
      0 < b.timeout_seconds - (now - t)) := by
  refine ⟨?_, ?_, ?_⟩
  · intro ts hlt
    exact (failCalls_closed ts (CircuitBreaker.init N T H) rfl
      (by simpa [CircuitBreaker.init] using hlt)).1
  · intro ts hne hlen
    have h := failCalls_opens ts hne (CircuitBreaker.init N T H) rfl
      (by simpa [CircuitBreaker.init] using hlen)
    exact ⟨h.1, h.2.2⟩
  · intro E A b now t outcome hs hl hle hcool
    exact call_open_rejects b now t outcome hs hl hle hcool

/-- Witness for C2 at the default configuration (threshold 5, timeout 60):
4 failures leave the breaker Closed, a 5th opens it recording time 4, and a
call at time 10 is rejected with remaining cooldown 54 without invocation. -/
theorem breaker_opens_after_threshold_and_rejects_witness :
    (failCalls (CircuitBreaker.init 5 60 3) [0, 1, 2, 3]).state = .closed ∧
    (failCalls (CircuitBreaker.init 5 60 3) [0, 1, 2, 3, 4]).state = .opened ∧
    (failCalls (CircuitBreaker.init 5 60 3) [0, 1, 2, 3, 4]).last_failure_time
      = some 4 ∧
    (CircuitBreaker.mk 5 60 3 .opened 5 (some 4) 0).call 10
        (Except.error ()) =
      (⟨.rejected 54, false, none,
        CircuitBreaker.mk 5 60 3 .opened 5 (some 4) 0⟩ :
        CallTrace Unit Unit) := by
  have h := breaker_opens_after_threshold_and_rejects 5 60 3
  have h2 := h.2.1 [0, 1, 2, 3, 4] (by decide) (by decide)
  have h3 := h.2.2 Unit Unit (CircuitBreaker.mk 5 60 3 .opened 5 (some 4) 0)
    10 4 (Except.error ()) rfl rfl (by decide) (by decide)
  refine ⟨h.1 [0, 1, 2, 3] (by decide), h2.1, ?_, ?_⟩
  · simpa using h2.2
  · simpa using h3.1

/-- C3: (a) the first call after `timeout_seconds` have elapsed since the
recorded failure lazily moves an Open breaker to HALF_OPEN (resetting the
half-open success counter) and then tries it; (b) each HALF_OPEN success
increments the half-open counter, and reaching `half_open_attempts`
transitions to CLOSED with both counters reset to 0; (c) a single failure
while HALF_OPEN transitions back to OPEN, restarting the cooldown from the
new failure time; (d) the hypothesis of (c) — the failure counter is
at/over the threshold in HALF_OPEN — holds for every reachable breaker. -/
theorem breaker_half_open_transitions :
    (∀ (E A : Type) (b : CircuitBreaker) (now t : Nat) (outcome : Except E A),
      b.state = .opened → b.last_failure_time = some t →
      b.timeout_seconds ≤ now - t →
      b.call now outcome =
        execCall { b with state := .halfOpen, half_open_success_count := 0 }
          now outcome ∧
      (b.call now outcome).invoked = true ∧
      (b.call now outcome).triedIn = some .halfOpen) ∧
    (∀ (A : Type) (b : CircuitBreaker) (now : Nat) (a : A),
      b.state = .halfOpen →
      (b.half_open_success_count + 1 < b.half_open_attempts →
        (b.call now (Except.ok a) : CallTrace Unit A).final =
          { b with half_open_success_count :=
                     b.half_open_success_count + 1 }) ∧
      (b.half_open_attempts ≤ b.half_open_success_count + 1 →
        (b.call now (Except.ok a) : CallTrace Unit A).final =
          { b with state := .closed, failures := 0,
                   half_open_success_count := 0 })) ∧
    (∀ (E : Type) (b : CircuitBreaker) (now : Nat) (e : E),
      b.state = .halfOpen → b.failure_threshold ≤ b.failures →
      (b.call now (Except.error e) : CallTrace E Unit).final.state =
        .opened ∧
      (b.call now (Except.error e) :
          CallTrace E Unit).final.last_failure_time = some now ∧
      (b.call now (Except.error e) : CallTrace E Unit).final.failures =
        b.failures + 1) ∧
    (∀ (N T H : Nat) (evs : List (Nat × Except Unit Unit)),
      BreakerInv (runCalls (CircuitBreaker.init N T H) evs)) := by
  refine ⟨?_, ?_, ?_, ?_⟩
  · intro E A b now t outcome hs hl hto
    have hreset : shouldAttemptReset b now = true := by
      simp [shouldAttemptReset, hl, hto]
    have heq : b.call now outcome =
        execCall { b with state := .halfOpen, half_open_success_count := 0 }
          now outcome := by
      unfold CircuitBreaker.call
      rw [hs, hreset]
      simp
    refine ⟨heq, ?_, ?_⟩ <;> rw [heq] <;> cases outcome <;> rfl
  · intro A b now a hs
    have hno : ¬ b.state = .opened := by rw [hs]; simp
    constructor
    · intro hlt
      unfold CircuitBreaker.call
      rw [if_neg hno]
      simp [execCall, onSuccess, hs, Nat.not_le.mpr hlt]
    · intro hge
      unfold CircuitBreaker.call
      rw [if_neg hno]
      simp [execCall, onSuccess, hs, hge]
  · intro E b now e hs hf
    have hno : ¬ b.state = .opened := by rw [hs]; simp
    unfold CircuitBreaker.call
    rw [if_neg hno]
    simp [execCall, onFailure, Nat.le_succ_of_le hf]
  · intro N T H evs
    exact breakerInv_runCalls evs _ (breakerInv_init N T H)

/-- Witness for C3 at the default configuration: an Open breaker (failure
recorded at 0) called at 60 is tried in HALF_OPEN; two successes count up;
the third closes the breaker and resets the counters; a failure while
HALF_OPEN reopens it recording the new failure time. -/
theorem breaker_half_open_transitions_witness :
    ((CircuitBreaker.mk 5 60 3 .opened 5 (some 0) 0).call 60
        (Except.ok ()) : CallTrace Unit Unit).triedIn = some .halfOpen ∧
    ((CircuitBreaker.mk 5 60 3 .halfOpen 5 (some 0) 0).call 61
        (Except.ok ()) : CallTrace Unit Unit).final =
      CircuitBreaker.mk 5 60 3 .halfOpen 5 (some 0) 1 ∧
    ((CircuitBreaker.mk 5 60 3 .halfOpen 5 (some 0) 2).call 62
        (Except.ok ()) : CallTrace Unit Unit).final =
      CircuitBreaker.mk 5 60 3 .closed 0 (some 0) 0 ∧
    ((CircuitBreaker.mk 5 60 3 .halfOpen 5 (some 0) 1).call 63
        (Except.error ()) : CallTrace Unit Unit).final.state = .opened ∧
    ((CircuitBreaker.mk 5 60 3 .halfOpen 5 (some 0) 1).call 63
        (Except.error ()) :
        CallTrace Unit Unit).final.last_failure_time = some 63 ∧
    BreakerInv (runCalls (CircuitBreaker.init 5 60 3)
      [(0, Except.error ()), (1, Except.error ())]) := by
  have h := breaker_half_open_transitions
  have ha := (h.1 Unit Unit (CircuitBreaker.mk 5 60 3 .opened 5 (some 0) 0)
    60 0 (Except.ok ()) rfl rfl (by decide)).2.2
  have hb1 := ((h.2.1 Unit (CircuitBreaker.mk 5 60 3 .halfOpen 5 (some 0) 0)
    61 ()) rfl).1 (by decide)
  have hb2 := ((h.2.1 Unit (CircuitBreaker.mk 5 60 3 .halfOpen 5 (some 0) 2)
    62 ()) rfl).2 (by decide)
  have hc := h.2.2.1 Unit (CircuitBreaker.mk 5 60 3 .halfOpen 5 (some 0) 1)
    63 () rfl (by decide)
  have hd := h.2.2.2 5 60 3 [(0, Except.error ()), (1, Except.error ())]
  exact ⟨ha, hb1, hb2, hc.1, hc.2.1, hd⟩

/-- C10: when the breaker permits the call (CLOSED or HALF_OPEN, or OPEN
after the cooldown), a wrapped function that raises `e` has exactly `e`
re-raised to the caller, with only the failure bookkeeping
(`_on_failure`) applied to the breaker; the breaker substitutes its own
error (a rejection) only while OPEN within the cooldown. -/
theorem breaker_reraises_original_exception :
    (∀ (E A : Type) (b : CircuitBreaker) (now : Nat) (e : E),
      b.state ≠ .opened →
      (b.call now (Except.error e) : CallTrace E A) =
        ⟨.raised e, true, some b.state, onFailure b now⟩) ∧
    (∀ (E A : Type) (b : CircuitBreaker) (now : Nat) (e : E),
      b.state = .opened → shouldAttemptReset b now = true →
      (b.call now (Except.error e) : CallTrace E A) =
        ⟨.raised e, true, some .halfOpen,
          onFailure { b with state := .halfOpen,
                             half_open_success_count := 0 } now⟩) ∧
    (∀ (E A : Type) (b : CircuitBreaker) (now : Nat)
        (outcome : Except E A) (r : Nat),
      (b.call now outcome).result = .rejected r →
      b.state = .opened ∧ shouldAttemptReset b now = false) := by
  refine ⟨?_, ?_, ?_⟩
  · intro E A b now e hno
    unfold CircuitBreaker.call
    rw [if_neg hno]
    rfl
  · intro E A b now e hs hreset
    unfold CircuitBreaker.call
    rw [hs, if_pos rfl, hreset]
    rfl
  · intro E A b now outcome r
    unfold CircuitBreaker.call
    split
    next hs =>
      split
      next hreset =>
        cases outcome <;> intro hres <;> cases hres
      next hreset =>
        intro _
        exact ⟨hs, by simpa using hreset⟩
    next hs =>
      cases outcome <;> intro hres <;> cases hres

/-- Witness for C10: a CLOSED breaker passes the failure through unchanged
and only updates bookkeeping; a rejection pins the breaker as OPEN inside
the cooldown. -/
theorem breaker_reraises_original_exception_witness :
    ((CircuitBreaker.mk 5 60 3 .closed 1 (some 0) 0).call 7
        (Except.error 42) : CallTrace Nat Unit) =
      ⟨.raised 42, true, some .closed,
        CircuitBreaker.mk 5 60 3 .closed 2 (some 7) 0⟩ ∧
    ((CircuitBreaker.mk 5 60 3 .opened 5 (some 0) 0).call 60
        (Except.error 42) : CallTrace Nat Unit).result = .raised 42 ∧
    (((CircuitBreaker.mk 5 60 3 .opened 5 (some 50) 0).call 60
        (Except.ok ()) : CallTrace Unit Unit).result = .rejected 50 →
      (CircuitBreaker.mk 5 60 3 .opened 5 (some 50) 0).state = .opened) := by
  have h := breaker_reraises_original_exception
  have h1 := h.1 Nat Unit (CircuitBreaker.mk 5 60 3 .closed 1 (some 0) 0)
    7 42 (by decide)
  have h2 := h.2.1 Nat Unit (CircuitBreaker.mk 5 60 3 .opened 5 (some 0) 0)
    60 42 rfl (by decide)
  refine ⟨?_, ?_, ?_⟩
  · rw [h1]; rfl
  · rw [h2]
  · intro hres
    exact (h.2.2 Unit Unit (CircuitBreaker.mk 5 60 3 .opened 5 (some 50) 0)
      60 (Except.ok ()) 50 hres).1

/-- Result of one run of a function wrapped by
`retry_with_exponential_backoff` (`error_handlers.py`): a normal return, an
exception outside the configured classes propagating unchanged, or
`MaxRetriesExceededError` wrapping the last underlying exception. -/
inductive RetryResult (E A : Type) where
  | ok (a : A)
  | propagated (e : E)
  | exhausted (last : Option E)
deriving DecidableEq, Repr

/-- Trace of one run of the retry wrapper: its result, how many times the
wrapped function was invoked, and the backoff delays slept (in order). -/
structure RetryTrace (E A : Type) where
  result : RetryResult E A
  calls : Nat
  delays : List ℚ
deriving DecidableEq, Repr

/-- The `for attempt in range(max_attempts)` loop of the retry wrapper,
entered at iteration `attempt`.  The wrapped function is modelled by the
outcome of its `i`-th invocation `f i`; `retriable e` models membership of
the raised exception in the configured `exceptions` tuple.  A retriable
failure before the final iteration sleeps `min(base_delay * 2 ** attempt,
max_delay)` and continues; a retriable failure on the final iteration falls
out of the loop into `raise MaxRetriesExceededError(...) from last`. -/
def retryFrom (f : Nat → Except E A) (retriable : E → Bool)
    (max_attempts : Nat) (base_delay max_delay : ℚ) (attempt : Nat) :
    RetryTrace E A :=
  if attempt < max_attempts then
    match f attempt with
    | .ok a => ⟨.ok a, 1, []⟩
    | .error e =>
      if retriable e then
        if attempt < max_attempts - 1 then
          let d := min (base_delay * 2 ^ attempt) max_delay
          let t := retryFrom f retriable max_attempts base_delay max_delay
            (attempt + 1)
          ⟨t.result, t.calls + 1, d :: t.delays⟩
        else
          ⟨.exhausted (some e), 1, []⟩
      else
        ⟨.propagated e, 1, []⟩
  else
    ⟨.exhausted none, 0, []⟩
termination_by max_attempts - attempt
decreasing_by omega

/-- `retry_with_exponential_backoff(...)` applied to a function: run the
retry loop from iteration 0. -/
def retry_with_exponential_backoff (f : Nat → Except E A)
    (retriable : E → Bool) (max_attempts : Nat)
    (base_delay max_delay : ℚ) : RetryTrace E A :=
  retryFrom f retriable max_attempts base_delay max_delay 0

/-- The loop never invokes the wrapped function more than the number of
remaining iterations. -/
theorem retryFrom_calls_le (f : Nat → Except E A) (retriable : E → Bool)
    (max_attempts : Nat) (base_delay max_delay : ℚ) :
    ∀ fuel attempt, max_attempts - attempt ≤ fuel →
    (retryFrom f retriable max_attempts base_delay max_delay attempt).calls
      ≤ max_attempts - attempt := by
  intro fuel
  induction fuel with
  | zero =>
    intro attempt h
    rw [retryFrom, if_neg (by omega)]
    simp
  | succ n ih =>
    intro attempt h
    rw [retryFrom]
    split
    next hlt =>
      split
      next a _ =>
        simp only
        omega
      next e _ =>
        split
        next hr =>
          split
          next h2 =>
            have := ih (attempt + 1) (by omega)
            simp only
            omega
          next h2 =>
            simp only
            omega
        next hr =>
          simp only
          omega
    next hge => simp

/-- Shape of a run whose iterations before `k` all raise retriable
exceptions and whose iteration `k` raises a non-retriable one: that
exception propagates after `k - attempt + 1` further invocations, with the
backoff formula slept once per failed iteration before `k`. -/
theorem retryFrom_propagates (f : Nat → Except E A) (retriable : E → Bool)
    (max_attempts : Nat) (b M : ℚ) (e : E) :
    ∀ fuel attempt k, k - attempt ≤ fuel → attempt ≤ k →
    k < max_attempts →
    (∀ j, attempt ≤ j → j < k →
      ∃ ej, f j = .error ej ∧ retriable ej = true) →
    f k = .error e → retriable e = false →
    retryFrom f retriable max_attempts b M attempt =
      ⟨.propagated e, k - attempt + 1,
        (List.range' attempt (k - attempt)).map
          (fun i => min (b * 2 ^ i) M)⟩ := by
  intro fuel
  induction fuel with
  | zero =>
    intro attempt k hfuel hak hkm hpre hk hnr
    have hek : attempt = k := by omega
    subst hek
    rw [retryFrom, if_pos hkm, hk]
    simp [hnr]
  | succ n ih =>
    intro attempt k hfuel hak hkm hpre hk hnr
    rcases Nat.eq_or_lt_of_le hak with hek | hlt
    · subst hek
      rw [retryFrom, if_pos hkm, hk]
      simp [hnr]
    · obtain ⟨ej, hej, hrj⟩ := hpre attempt le_rfl hlt
      rw [retryFrom, if_pos (by omega), hej]
      simp only [hrj, if_true, if_pos (show attempt < max_attempts - 1 by omega)]
      rw [ih (attempt + 1) k (by omega) (by omega) hkm
        (fun j h1 h2 => hpre j (by omega) h2) hk hnr]
      have hm : k - attempt = (k - (attempt + 1)) + 1 := by omega
      rw [hm, List.range'_succ]
      simp only [List.map_cons, RetryTrace.mk.injEq, true_and, and_true]
      try omega

/-- Shape of a run in which every remaining iteration raises a retriable
exception: the loop exhausts, wrapping the exception of the final
iteration, with the backoff formula slept once per non-final iteration. -/
theorem retryFrom_exhausts (f : Nat → Except E A) (retriable : E → Bool)
    (max_attempts : Nat) (b M : ℚ) (errs : Nat → E) :
    ∀ fuel attempt, max_attempts - attempt ≤ fuel →
    attempt < max_attempts →
    (∀ j, attempt ≤ j → j < max_attempts →
      f j = .error (errs j) ∧ retriable (errs j) = true) →
    retryFrom f retriable max_attempts b M attempt =
      ⟨.exhausted (some (errs (max_attempts - 1))), max_attempts - attempt,
        (List.range' attempt (max_attempts - 1 - attempt)).map
          (fun i => min (b * 2 ^ i) M)⟩ := by
  intro fuel
  induction fuel with
  | zero =>
    intro attempt hfuel ham _
    omega
  | succ n ih =>
    intro attempt hfuel ham hall
    obtain ⟨hfa, hra⟩ := hall attempt le_rfl ham
    by_cases hend : attempt < max_attempts - 1
    · rw [retryFrom, if_pos ham, hfa]
      simp only [hra, if_true, if_pos hend]
      rw [ih (attempt + 1) (by omega) (by omega)
        (fun j h1 h2 => hall j (by omega) h2)]
      have hm : max_attempts - 1 - attempt =
          (max_attempts - 1 - (attempt + 1)) + 1 := by omega
      rw [hm, List.range'_succ]
      simp only [List.map_cons, RetryTrace.mk.injEq, true_and, and_true]
      try omega
    · have hea : attempt = max_attempts - 1 := by omega
      have h1 : max_attempts - attempt = 1 := by omega
      have h0 : max_attempts - 1 - attempt = 0 := by omega
      rw [retryFrom, if_pos ham, hfa]
      simp only [hra, if_true, if_neg hend]
      rw [h1, h0, hea]
      simp

/-- Every run's delay list follows the backoff formula from the starting
iteration. -/
theorem retryFrom_delays_shape (f : Nat → Except E A) (retriable : E → Bool)
    (max_attempts : Nat) (b M : ℚ) :
    ∀ fuel attempt, max_attempts - attempt ≤ fuel →
    ∃ n, (retryFrom f retriable max_attempts b M attempt).delays =
      (List.range' attempt n).map (fun i => min (b * 2 ^ i) M) := by
  intro fuel
  induction fuel with
  | zero =>
    intro attempt h
    refine ⟨0, ?_⟩
    rw [retryFrom, if_neg (by omega)]
    simp
  | succ n ih =>
    intro attempt h
    rw [retryFrom]
    split
    next hlt =>
      split
      next a _ => exact ⟨0, by simp⟩
      next e _ =>
        split
        next hr =>
          split
          next h2 =>
            obtain ⟨m, hm⟩ := ih (attempt + 1) (by omega)
            refine ⟨m + 1, ?_⟩
            simp only
            rw [hm, List.range'_succ]
            simp
          next h2 => exact ⟨0, by simp⟩
        next hr => exact ⟨0, by simp⟩
    next hge => exact ⟨0, by simp⟩

/-- Element lookup in a backoff-formula delay list. -/
theorem getD_map_range (g : Nat → ℚ) (n i : Nat) (h : i < n) :
    ((List.range n).map g).getD i 0 = g i := by
  simp [List.getD_eq_getElem?_getD, List.getElem?_map, List.getElem?_range, h]

/-- C4: the wrapped action is invoked at most `max_attempts` times; an
exception outside the configured classes propagates immediately, ending the
run after its own invocation; and when all `max_attempts` invocations raise
configured exceptions, a single `MaxRetriesExceededError` is raised
wrapping the last underlying exception. -/
theorem retry_controller_contract :
    (∀ (E A : Type) (f : Nat → Except E A) (retriable : E → Bool)
        (max_attempts : Nat) (b M : ℚ),
      (retry_with_exponential_backoff f retriable max_attempts b M).calls ≤
        max_attempts) ∧
    (∀ (E A : Type) (f : Nat → Except E A) (retriable : E → Bool)
        (max_attempts : Nat) (b M : ℚ) (k : Nat) (e : E),
      k < max_attempts →
      (∀ j, j < k → ∃ ej, f j = .error ej ∧ retriable ej = true) →
      f k = .error e → retriable e = false →
      retry_with_exponential_backoff f retriable max_attempts b M =
        ⟨.propagated e, k + 1,
          (List.range k).map (fun i => min (b * 2 ^ i) M)⟩) ∧
    (∀ (E A : Type) (f : Nat → Except E A) (retriable : E → Bool)
        (max_attempts : Nat) (b M : ℚ) (errs : Nat → E),
      0 < max_attempts →
      (∀ j, j < max_attempts →
        f j = .error (errs j) ∧ retriable (errs j) = true) →
      retry_with_exponential_backoff f retriable max_attempts b M =
        ⟨.exhausted (some (errs (max_attempts - 1))), max_attempts,
          (List.range (max_attempts - 1)).map
            (fun i => min (b * 2 ^ i) M)⟩) := by
  refine ⟨?_, ?_, ?_⟩
  · intro E A f r m b M
    simpa using retryFrom_calls_le f r m b M m 0 (by omega)
  · intro E A f r m b M k e hk hpre hfk hnr
    have h := retryFrom_propagates f r m b M e k 0 k (by omega)
      (Nat.zero_le k) hk (fun j _ hj => hpre j hj) hfk hnr
    rw [retry_with_exponential_backoff, h]
    simp [List.range_eq_range']
  · intro E A f r m b M errs hm hall
    have h := retryFrom_exhausts f r m b M errs m 0 (by omega) hm
      (fun j _ hj => hall j hj)
    rw [retry_with_exponential_backoff, h]
    simp [List.range_eq_range']

/-- Witness for C4: with attempts raising exception `i` on invocation `i`
and only exceptions below 2 configured as retriable, the run propagates
exception 2 after 3 of the allowed 5 invocations; with every exception
retriable and 3 attempts, the run exhausts wrapping the last exception 2
after delays 1s and 2s. -/
theorem retry_controller_contract_witness :
    (retry_with_exponential_backoff
        (fun i => (Except.error i : Except Nat Unit))
        (fun e => decide (e < 2)) 5 1 10).calls ≤ 5 ∧
    (retry_with_exponential_backoff
        (fun i => (Except.error i : Except Nat Unit))
        (fun e => decide (e < 2)) 5 1 10).result = .propagated 2 ∧
    (retry_with_exponential_backoff
        (fun i => (Except.error i : Except Nat Unit))
        (fun _ => true) 3 1 10) = ⟨.exhausted (some 2), 3, [1, 2]⟩ := by
  have h := retry_controller_contract
  have h2 := h.2.1 Nat Unit (fun i => Except.error i)
    (fun e => decide (e < 2)) 5 1 10 2 2 (by omega)
    (fun j hj => ⟨j, rfl, by simpa using hj⟩) rfl (by decide)
  have h3 := h.2.2 Nat Unit (fun i => Except.error i) (fun _ => true)
    3 1 10 id (by omega) (fun j _ => ⟨rfl, rfl⟩)
  refine ⟨h.1 Nat Unit (fun i => Except.error i)
    (fun e => decide (e < 2)) 5 1 10, ?_, ?_⟩
  · rw [h2]
  · rw [h3]
    norm_num [List.range_succ]

/-- C5: the delays slept by the retry wrapper are exactly
`min(base_delay * 2 ** i, max_delay)` for the 0-indexed retry `i`; hence
with a nonnegative base delay they are nondecreasing and never exceed
`max_delay`. -/
theorem retry_backoff_delay_formula :
    (∀ (E A : Type) (f : Nat → Except E A) (retriable : E → Bool)
        (max_attempts : Nat) (b M : ℚ),
      ∃ n,
        (retry_with_exponential_backoff f retriable max_attempts
          b M).delays =
        (List.range n).map (fun i => min (b * 2 ^ i) M)) ∧
    (∀ (E A : Type) (f : Nat → Except E A) (retriable : E → Bool)
        (max_attempts : Nat) (b M : ℚ) (i j : Nat),
      0 ≤ b → i ≤ j →
      j < (retry_with_exponential_backoff f retriable max_attempts
        b M).delays.length →
      (retry_with_exponential_backoff f retriable max_attempts
        b M).delays.getD i 0 ≤
      (retry_with_exponential_backoff f retriable max_attempts
        b M).delays.getD j 0) ∧
    (∀ (E A : Type) (f : Nat → Except E A) (retriable : E → Bool)
        (max_attempts : Nat) (b M : ℚ) (i : Nat),
      i < (retry_with_exponential_backoff f retriable max_attempts
        b M).delays.length →
      (retry_with_exponential_backoff f retriable max_attempts
        b M).delays.getD i 0 ≤ M) := by
  have hshape : ∀ (E A : Type) (f : Nat → Except E A)
      (retriable : E → Bool) (max_attempts : Nat) (b M : ℚ),
      ∃ n,
        (retry_with_exponential_backoff f retriable max_attempts
          b M).delays =
        (List.range n).map (fun i => min (b * 2 ^ i) M) := by
    intro E A f r m b M
    obtain ⟨n, hn⟩ := retryFrom_delays_shape f r m b M m 0 (by omega)
    refine ⟨n, ?_⟩
    rw [retry_with_exponential_backoff, hn, List.range_eq_range']
  refine ⟨hshape, ?_, ?_⟩
  · intro E A f r m b M i j hb hij hj
    obtain ⟨n, hn⟩ := hshape E A f r m b M
    rw [hn] at hj ⊢
    have hjn : j < n := by simpa using hj
    have hin : i < n := by omega
    rw [getD_map_range _ n i hin, getD_map_range _ n j hjn]
    refine min_le_min ?_ le_rfl
    refine mul_le_mul_of_nonneg_left ?_ hb
    exact pow_le_pow_right₀ (by norm_num) hij
  · intro E A f r m b M i hi
    obtain ⟨n, hn⟩ := hshape E A f r m b M
    rw [hn] at hi ⊢
    have hin : i < n := by simpa using hi
    rw [getD_map_range _ n i hin]
    exact min_le_right _ _

/-- Witness for C5 on a run with 3 attempts all failing: the two recorded
delays follow the formula, are nondecreasing, and stay below the cap. -/
theorem retry_backoff_delay_formula_witness :
    (∃ n,
      (retry_with_exponential_backoff
          (fun i => (Except.error i : Except Nat Unit)) (fun _ => true)
          3 1 10).delays =
      (List.range n).map (fun i => min ((1 : ℚ) * 2 ^ i) 10)) ∧
    (retry_with_exponential_backoff
        (fun i => (Except.error i : Except Nat Unit)) (fun _ => true)
        3 1 10).delays.getD 0 0 ≤
      (retry_with_exponential_backoff
        (fun i => (Except.error i : Except Nat Unit)) (fun _ => true)
        3 1 10).delays.getD 1 0 ∧
    (retry_with_exponential_backoff
        (fun i => (Except.error i : Except Nat Unit)) (fun _ => true)
        3 1 10).delays.getD 1 0 ≤ 10 := by
  have h := retry_backoff_delay_formula
  have htr : (retry_with_exponential_backoff
      (fun i => (Except.error i : Except Nat Unit)) (fun _ => true)
      3 1 10) = ⟨.exhausted (some 2), 3, [1, 2]⟩ := by
    rw [retry_with_exponential_backoff]
    rw [retryFrom]; norm_num
    rw [retryFrom]; norm_num
    rw [retryFrom]; norm_num
  have hlen : (retry_with_exponential_backoff
      (fun i => (Except.error i : Except Nat Unit)) (fun _ => true)
      3 1 10).delays.length = 2 := by rw [htr]; rfl
  refine ⟨h.1 Nat Unit (fun i => Except.error i) (fun _ => true) 3 1 10,
    ?_, ?_⟩
  · exact h.2.1 Nat Unit (fun i => Except.error i) (fun _ => true) 3 1 10
      0 1 (by norm_num) (by omega) (by rw [hlen]; omega)
  · exact h.2.2 Nat Unit (fun i => Except.error i) (fun _ => true) 3 1 10
      1 (by rw [hlen]; omega)

/-- `QuizQuestion` (`models.py`): a quiz question with stem, correct
answer, exactly 3 distractors, and explanation. -/
structure QuizQuestion where
  stem : String
  correct_answer : String
  distractors : List String
  explanation : String
deriving DecidableEq, Repr

/-- The `validate_distractors` pydantic field validator: exactly 3
distractors, no duplicates (`len(set(v)) == 3`), and the correct answer not
among them; the first violated rule raises. -/
def validate_distractors (v : List String) (correct_answer : String) :
    Except String (List String) :=
  if v.length ≠ 3 then .error "Exactly 3 distractors required"
  else if v.dedup.length ≠ 3 then .error "Distractors must be unique"
  else if correct_answer ∈ v then
    .error "Distractors must not contain correct_answer"
  else .ok v

/-- Pydantic construction of a `QuizQuestion`: the `distractors` field
constraints (`min_length=3`, `max_length=3`) and `validate_distractors`
must all pass, otherwise the whole object is rejected and no instance is
produced. -/
def QuizQuestion.construct (stem correct_answer : String)
    (distractors : List String) (explanation : String) :
    Except String QuizQuestion :=
  if distractors.length < 3 then
    .error "List should have at least 3 items"
  else if 3 < distractors.length then
    .error "List should have at most 3 items"
  else
    match validate_distractors distractors correct_answer with
    | .error msg => .error msg
    | .ok v => .ok ⟨stem, correct_answer, v, explanation⟩

/-- C7: every accepted `QuizQuestion` satisfies all three distractor
invariants simultaneously — exactly 3 distractors, pairwise distinct, and
the correct answer not among them — and any violation rejects the whole
construction. -/
theorem quiz_distractor_invariants :
    (∀ (stem ca : String) (ds : List String) (ex : String)
        (q : QuizQuestion),
      QuizQuestion.construct stem ca ds ex = .ok q →
      q.distractors.length = 3 ∧ q.distractors.Nodup ∧
      q.correct_answer ∉ q.distractors ∧ q = ⟨stem, ca, ds, ex⟩) ∧
    (∀ (stem ca : String) (ds : List String) (ex : String),
      ds.length ≠ 3 ∨ ¬ ds.Nodup ∨ ca ∈ ds →
      ∀ q : QuizQuestion, QuizQuestion.construct stem ca ds ex ≠ .ok q) := by
  have hmain : ∀ (stem ca : String) (ds : List String) (ex : String)
      (q : QuizQuestion),
      QuizQuestion.construct stem ca ds ex = .ok q →
      q.distractors.length = 3 ∧ q.distractors.Nodup ∧
      q.correct_answer ∉ q.distractors ∧ q = ⟨stem, ca, ds, ex⟩ := by
    intro stem ca ds ex q h
    unfold QuizQuestion.construct at h
    split at h
    · cases h
    · split at h
      · cases h
      · split at h
        next msg heq => cases h
        next v heq =>
          rw [Except.ok.injEq] at h
          subst h
          unfold validate_distractors at heq
          split at heq
          next hlen3 => cases heq
          next hlen3 =>
            split at heq
            next hdedup => cases heq
            next hdedup =>
              split at heq
              next hmem => cases heq
              next hmem =>
                rw [Except.ok.injEq] at heq
                subst heq
                have hlen : ds.length = 3 := by omega
                have hdl : ds.dedup.length = ds.length := by omega
                have hded : ds.dedup = ds :=
                  ds.dedup_sublist.eq_of_length hdl
                refine ⟨hlen, ?_, hmem, rfl⟩
                rw [← hded]
                exact ds.nodup_dedup
  refine ⟨hmain, ?_⟩
  intro stem ca ds ex hviol q hok
  obtain ⟨h3, hnd, hnm, hq⟩ := hmain stem ca ds ex q hok
  cases hq
  rcases hviol with h | h | h
  · exact h h3
  · exact h hnd
  · exact hnm h

/-- Witness for C7: a well-formed question is accepted and satisfies the
invariants; duplicating the correct answer among the distractors rejects
construction. -/
theorem quiz_distractor_invariants_witness :
    QuizQuestion.construct "Which planet is largest?" "Jupiter"
      ["Mars", "Venus", "Saturn"] "Jupiter is the largest planet." =
      .ok ⟨"Which planet is largest?", "Jupiter",
        ["Mars", "Venus", "Saturn"], "Jupiter is the largest planet."⟩ ∧
    (⟨"Which planet is largest?", "Jupiter", ["Mars", "Venus", "Saturn"],
      "Jupiter is the largest planet."⟩ :
        QuizQuestion).distractors.Nodup ∧
    QuizQuestion.construct "Which planet is largest?" "Jupiter"
      ["Jupiter", "Venus", "Saturn"] "Jupiter is the largest planet." ≠
      .ok ⟨"Which planet is largest?", "Jupiter",
        ["Jupiter", "Venus", "Saturn"],
        "Jupiter is the largest planet."⟩ := by
  have hok : QuizQuestion.construct "Which planet is largest?" "Jupiter"
      ["Mars", "Venus", "Saturn"] "Jupiter is the largest planet." =
      .ok ⟨"Which planet is largest?", "Jupiter",
        ["Mars", "Venus", "Saturn"], "Jupiter is the largest planet."⟩ := by
    rfl
  have hinv := (quiz_distractor_invariants.1 "Which planet is largest?"
    "Jupiter" ["Mars", "Venus", "Saturn"]
    "Jupiter is the largest planet." _ hok).2.1
  have hrej := quiz_distractor_invariants.2 "Which planet is largest?"
    "Jupiter" ["Jupiter", "Venus", "Saturn"]
    "Jupiter is the largest planet."
    (Or.inr (Or.inr (by decide)))
    ⟨"Which planet is largest?", "Jupiter", ["Jupiter", "Venus", "Saturn"],
      "Jupiter is the largest planet."⟩
  exact ⟨hok, hinv, hrej⟩

/-- Python `str.lower()` restricted to the ASCII range. -/
def pyLower (s : String) : String := String.mk (s.data.map Char.toLower)

/-- Python `str.upper()` restricted to the ASCII range. -/
def pyUpper (s : String) : String := String.mk (s.data.map Char.toUpper)

/-- Python `str.strip()`: drop leading and trailing whitespace. -/
def pyStrip (s : String) : String :=
  String.mk
    (((s.data.dropWhile Char.isWhitespace).reverse.dropWhile
      Char.isWhitespace).reverse)

/-- The 30 approved verbs of the "Remember" level (`BloomsTaxonomy.VERBS`). -/
def rememberVerbs : List String :=
  ["define", "list", "name", "identify", "recall", "recognize", "label", 
   "match", "memorize", "repeat", "state", "select", "locate", "tell", 
   "quote", "enumerate", "outline", "describe", "who", "what", "when", 
   "where", "which", "how", "show", "mark", "spell", "find", "cite", 
   "tabulate"]

/-- The 30 approved verbs of the "Understand" level (`BloomsTaxonomy.VERBS`). -/
def understandVerbs : List String :=
  ["explain", "describe", "summarize", "interpret", "paraphrase", 
   "clarify", "discuss", "illustrate", "demonstrate", "exemplify", 
   "rephrase", "translate", "convert", "estimate", "infer", "predict", 
   "conclude", "differentiate", "distinguish", "compare", "contrast", 
   "extend", "generalize", "give examples", "restate", "express", 
   "indicate", "reason", "derive", "grasp"]

/-- The 30 approved verbs of the "Apply" level (`BloomsTaxonomy.VERBS`). -/
def applyVerbs : List String :=
  ["apply", "use", "implement", "execute", "employ", "utilize", "practice", 
   "perform", "operate", "manipulate", "modify", "change", "solve", 
   "calculate", "compute", "determine", "discover", "verify", "validate", 
   "check", "test", "debug", "trace", "run", "build", "construct", 
   "create", "generate", "produce", "develop"]

/-- The 30 approved verbs of the "Analyze" level (`BloomsTaxonomy.VERBS`). -/
def analyzeVerbs : List String :=
  ["analyze", "differentiate", "distinguish", "examine", "investigate", 
   "inspect", "explore", "compare", "contrast", "categorize", "classify", 
   "break down", "deconstruct", "separate", "discriminate", "detect", 
   "identify patterns", "recognize structure", "find", "diagnose", 
   "troubleshoot", "audit", "review", "assess", "evaluate", "organize", 
   "outline", "structure", "map", "profile"]

/-- The 30 approved verbs of the "Evaluate" level (`BloomsTaxonomy.VERBS`). -/
def evaluateVerbs : List String :=
  ["evaluate", "assess", "judge", "appraise", "estimate", "measure", 
   "rate", "score", "value", "critique", "criticize", "recommend", 
   "advise", "select", "choose", "prefer", "defend", "justify", "validate", 
   "verify", "confirm", "corroborate", "support", "argue", "debate", 
   "dispute", "question", "challenge", "weigh", "prioritize"]

/-- The 30 approved verbs of the "Create" level (`BloomsTaxonomy.VERBS`). -/
def createVerbs : List String :=
  ["create", "design", "construct", "build", "develop", "formulate", 
   "generate", "produce", "manufacture", "compose", "assemble", "combine", 
   "integrate", "merge", "blend", "synthesize", "originate", "devise", 
   "invent", "concoct", "plan", "propose", "draft", "outline", "structure", 
   "organize", "arrange", "author", "fabricate", "derive"]

/-- `BloomsTaxonomy.VERBS` (`models.py`): the complete verb table, one
entry per cognitive level. -/
def VERBS : List (String × List String) :=
  [("Remember", rememberVerbs),
   ("Understand", understandVerbs),
   ("Apply", applyVerbs),
   ("Analyze", analyzeVerbs),
   ("Evaluate", evaluateVerbs),
   ("Create", createVerbs)]

/-- `BloomsTaxonomy.validate_verb`: look up the level's approved list
(empty for unknown levels), normalize the verb (strip, lowercase), and
test membership against the lowercased approved list. -/
def validate_verb (verb level : String) : Bool :=
  let approved_verbs := (VERBS.lookup level).getD []
  let normalized_verb := pyLower (pyStrip verb)
  (approved_verbs.map pyLower).contains normalized_verb

/-- Lookup misses every association list whose keys all differ from the
query. -/
theorem lookup_eq_none_of_forall_ne {β : Type} (l : List (String × β))
    (a : String) (h : ∀ p ∈ l, p.1 ≠ a) : l.lookup a = none := by
  induction l with
  | nil => rfl
  | cons p rest ih =>
    have hne : (a == p.1) = false :=
      beq_eq_false_iff_ne.mpr (Ne.symm (h p (by simp)))
    simp only [List.lookup, hne]
    exact ih fun q hq => h q (by simp [hq])

/-- C9: every approved verb of every level validates, also in uppercase and
with surrounding whitespace; a verb whose normalization is not in the
level's (lowercased) approved list is rejected; an unknown level makes
`validate_verb` return false without erroring. -/
theorem taxonomy_validate_verb_membership :
    (∀ p ∈ VERBS, ∀ v ∈ p.2,
      validate_verb v p.1 = true ∧
      validate_verb (pyUpper v) p.1 = true ∧
      validate_verb (" " ++ v ++ " ") p.1 = true) ∧
    (∀ verb level : String,
      pyLower (pyStrip verb) ∉ ((VERBS.lookup level).getD []).map pyLower →
      validate_verb verb level = false) ∧
    (∀ verb level : String, (∀ p ∈ VERBS, p.1 ≠ level) →
      validate_verb verb level = false) := by
  refine ⟨by decide, ?_, ?_⟩
  · intro verb level h
    unfold validate_verb
    simpa using h
  · intro verb level h
    unfold validate_verb
    rw [lookup_eq_none_of_forall_ne VERBS level h]
    rfl

/-- Witness for C9: "define" (also uppercased and padded) is approved for
Remember; "zzz" is not; the unknown level "NoSuchLevel" validates nothing. -/
theorem taxonomy_validate_verb_membership_witness :
    validate_verb "define" "Remember" = true ∧
    validate_verb (pyUpper "define") "Remember" = true ∧
    validate_verb (" " ++ "define" ++ " ") "Remember" = true ∧
    validate_verb "zzz" "Remember" = false ∧
    validate_verb "define" "NoSuchLevel" = false := by
  have h := taxonomy_validate_verb_membership
  have h1 := h.1 ("Remember", rememberVerbs) (by decide) "define" (by decide)
  have h2 := h.2.1 "zzz" "Remember" (by decide)
  have h3 := h.2.2 "define" "NoSuchLevel" (by decide)
  exact ⟨h1.1, h1.2.1, h1.2.2, h2, h3⟩

/-- Heap of mutable Python list objects: `cells.getD addr` is the current
contents of the list object whose identity is `addr`.  `dict.copy()`
copies a mapping's entries but not the list objects they reference. -/
structure VerbHeap where
  cells : List (List String)
deriving DecidableEq, Repr

/-- A Python dict mapping level names to list objects (by address). -/
structure VerbDict where
  entries : List (String × Nat)
deriving DecidableEq, Repr

/-- Read the list object at `addr`. -/
def readCell (h : VerbHeap) (addr : Nat) : List String :=
  h.cells.getD addr []

/-- In-place mutation of the list object at `addr` (e.g. `lst.clear()` or
`lst.append(...)` performed through any alias of the object). -/
def writeCell (h : VerbHeap) (addr : Nat) (l : List String) : VerbHeap :=
  ⟨h.cells.set addr l⟩

/-- The six list objects of the class attribute `BloomsTaxonomy.VERBS`,
allocated at addresses 0..5. -/
def initHeap : VerbHeap := ⟨VERBS.map Prod.snd⟩

/-- The canonical `BloomsTaxonomy.VERBS` dict: level name to the address
of its verb-list object. -/
def canonicalVERBS : VerbDict :=
  ⟨[("Remember", 0), ("Understand", 1), ("Apply", 2), ("Analyze", 3),
    ("Evaluate", 4), ("Create", 5)]⟩

/-- `BloomsTaxonomy.validate_verb` reading `cls.VERBS[level]` through the
heap at call time, so in-place mutations of the list objects performed
before the call are observed. -/
def validate_verb_in (h : VerbHeap) (d : VerbDict) (verb level : String) :
    Bool :=
  let approved_verbs :=
    match d.entries.lookup level with
    | none => []
    | some addr => readCell h addr
  (approved_verbs.map pyLower).contains (pyLower (pyStrip verb))

/-- `BloomsTaxonomy.get_all_verbs`: returns `cls.VERBS.copy()` — a new
dict holding the same entries, hence the same list objects. -/
def get_all_verbs (d : VerbDict) : VerbDict := ⟨d.entries⟩

/-- Counterexample for C8: `get_all_verbs` hands out the canonical list
objects.  Before any mutation, "define" validates for Remember; after the
caller clears the Remember list obtained from the returned copy, the same
`validate_verb` call on the canonical table returns false — a mutation of
the returned value changed the canonical verb table. -/
theorem get_all_verbs_shallow_counterexample :
    validate_verb_in initHeap canonicalVERBS "define" "Remember" = true ∧
    (get_all_verbs canonicalVERBS).entries.lookup "Remember" = some 0 ∧
    validate_verb_in (writeCell initHeap 0 []) canonicalVERBS "define"
      "Remember" = false := by
  decide

/-- C8 (amended): `get_all_verbs` returns a shallow copy — a new mapping
with the same entries, hence sharing the per-level list objects; replacing
entries of the copy cannot affect the canonical dict value, but in-place
mutation of a shared per-level list through the copy changes the canonical
verb table used by every subsequent `validate_verb` call. -/
theorem get_all_verbs_shallow_copy :
    (∀ d : VerbDict, (get_all_verbs d).entries = d.entries) ∧
    (get_all_verbs canonicalVERBS).entries.lookup "Remember" = some 0 ∧
    validate_verb_in initHeap canonicalVERBS "define" "Remember" = true ∧
    (∀ verb : String,
      validate_verb_in (writeCell initHeap 0 []) canonicalVERBS verb
        "Remember" = false) := by
  refine ⟨fun d => rfl, by decide, by decide, fun verb => rfl⟩

/-- `sub.isPrefixOf (s.drop i)` scan underlying Python `str.find`: index of
the first position at or after the start of `s` where `sub` occurs, offset
by `i`. -/
def findAux (sub : List Char) : List Char → Nat → Option Nat
  | [], i => if sub.isPrefixOf ([] : List Char) then some i else none
  | c :: rest, i =>
    if sub.isPrefixOf (c :: rest) then some i else findAux sub rest (i + 1)

/-- Python `s.find(sub, start)`: first occurrence index, or -1. -/
def pyFindFrom (s sub : List Char) (start : Nat) : Int :=
  match findAux sub (s.drop start) 0 with
  | none => -1
  | some i => ((i + start : Nat) : Int)

/-- Python `s.find(sub)`. -/
def pyFind (s sub : List Char) : Int := pyFindFrom s sub 0

/-- Python `sub in s` for strings. -/
def pyContains (s sub : List Char) : Bool := pyFind s sub != -1

/-- Python slice `s[a:b]` for nonnegative in-range indices. -/
def pySlice (s : List Char) (a b : Nat) : List Char := (s.take b).drop a

/-- Python `str.strip()` on character lists. -/
def stripChars (cs : List Char) : List Char :=
  ((cs.dropWhile Char.isWhitespace).reverse.dropWhile
    Char.isWhitespace).reverse

/-- The characters of the labeled fence `"```json"`. -/
def jsonFenceChars : List Char := "```json".data

/-- The characters of the plain fence `"```"`. -/
def fenceChars : List Char := "```".data

/-- Why schema construction failed: a pydantic `ValidationError`, or any
other exception (caught by the generic handler). -/
inductive SchemaErr where
  | validation
  | other
deriving DecidableEq, Repr

/-- The error reported in the result dict of `validate_json_output`
(`tests/spikes/hello_world.py`), by failure kind.  Only `invalidJson`
carries a diagnostic excerpt of the raw text (`output[:200]`, to which the
message appends `"..."`). -/
inductive VError where
  | noClosingJsonFence
  | noClosingFence
  | invalidJson (excerpt : List Char)
  | validationError
  | unexpected
deriving DecidableEq, Repr

/-- The result dict of `validate_json_output`: `valid`,
`course_structure`, `error`, `json_extracted`. -/
structure VResult (C : Type) where
  valid : Bool
  course : Option C
  error : Option VError
  json_extracted : Bool
deriving DecidableEq, Repr

/-- After JSON was parsed (`json_extracted = True`): construct the schema
object; a `ValidationError` or any other exception is caught and recorded. -/
def finishParse (schema : J → Except SchemaErr C) (data : J) : VResult C :=
  match schema data with
  | .ok course => ⟨true, some course, none, true⟩
  | .error .validation => ⟨false, none, some .validationError, true⟩
  | .error .other => ⟨false, none, some .unexpected, true⟩

/-- `validate_json_output` (`tests/spikes/hello_world.py`): try a direct
parse of the full text; otherwise extract the interior of a `"```json"`
block, else of a plain `"```"` block, parse it, and validate against the
schema; with no fence present, report `Invalid JSON` with the first 200
characters of the raw text.  The external `json.loads` is the parameter
`parse` (`none` models `json.JSONDecodeError`, which inside an extraction
branch is caught by the generic `except Exception` handler). -/
def validate_json_output (parse : List Char → Option J)
    (schema : J → Except SchemaErr C) (output : List Char) : VResult C :=
  match parse output with
  | some data => finishParse schema data
  | none =>
    let os := stripChars output
    if pyContains os jsonFenceChars then
      let start := (pyFind os jsonFenceChars).toNat + 7
      let endI := pyFindFrom os fenceChars start
      if endI ≠ -1 then
        match parse (stripChars (pySlice os start endI.toNat)) with
        | some data => finishParse schema data
        | none => ⟨false, none, some .unexpected, false⟩
      else ⟨false, none, some .noClosingJsonFence, false⟩
    else if pyContains os fenceChars then
      let start := (pyFind os fenceChars).toNat + 3
      let endI := pyFindFrom os fenceChars start
      if endI ≠ -1 then
        match parse (stripChars (pySlice os start endI.toNat)) with
        | some data => finishParse schema data
        | none => ⟨false, none, some .unexpected, false⟩
      else ⟨false, none, some .noClosingFence, false⟩
    else ⟨false, none, some (.invalidJson (output.take 200)), false⟩

/-- A raw model response wrapping the payload in a labeled fence:
`"```json\n" + s + "\n```"`. -/
def wrapJson (s : List Char) : List Char :=
  jsonFenceChars ++ '\n' :: s ++ '\n' :: fenceChars

/-- The backtick character. -/
def backtick : Char := "`".data.headD 'A'

/-- `fenceChars` in constructor form. -/
theorem fenceChars_cons :
    fenceChars = backtick :: backtick :: backtick :: [] := by decide

/-- `jsonFenceChars` in constructor form. -/
theorem jsonFenceChars_cons :
    jsonFenceChars =
      backtick :: backtick :: backtick :: 'j' :: 's' :: 'o' :: 'n' :: [] := by
  decide

/-- A failed scan means no occurrence at any position. -/
theorem findAux_eq_none (sub : List Char) :
    ∀ (l : List Char) (i : Nat), findAux sub l i = none →
    ∀ k, sub.isPrefixOf (l.drop k) = false := by
  intro l
  induction l with
  | nil =>
    intro i h k
    unfold findAux at h
    split at h
    · cases h
    · next hp =>
      rw [List.drop_nil]
      cases hb : sub.isPrefixOf ([] : List Char)
      · rfl
      · exact absurd hb hp
  | cons c t ih =>
    intro i h k
    unfold findAux at h
    split at h
    · cases h
    · next hp =>
      cases k with
      | zero =>
        rw [List.drop_zero]
        cases hb : sub.isPrefixOf (c :: t)
        · rfl
        · exact absurd hb hp
      | succ k' => exact ih (i + 1) h k'

/-- A scan skips over a block containing no occurrence (also straddling
into what follows). -/
theorem findAux_append (sub l₂ : List Char) :
    ∀ (l₁ : List Char) (i : Nat),
    (∀ j, j < l₁.length → sub.isPrefixOf (l₁.drop j ++ l₂) = false) →
    findAux sub (l₁ ++ l₂) i = findAux sub l₂ (i + l₁.length) := by
  intro l₁
  induction l₁ with
  | nil => intro i _; simp
  | cons c t ih =>
    intro i h
    have h0 : sub.isPrefixOf (c :: (t ++ l₂)) = false := by
      simpa using h 0 (by simp)
    show (if sub.isPrefixOf (c :: (t ++ l₂)) then some i
      else findAux sub (t ++ l₂) (i + 1)) = _
    rw [h0]
    simp only [Bool.false_eq_true, if_false]
    rw [ih (i + 1) fun j hj => by
      simpa using h (j + 1) (by simp only [List.length_cons]; omega)]
    congr 1
    simp only [List.length_cons]
    omega

/-- A list starting and ending in non-whitespace is already stripped. -/
theorem stripChars_of_ends (a b : Char) (ha : a.isWhitespace = false)
    (hb : b.isWhitespace = false) (mid : List Char) :
    stripChars (a :: (mid ++ [b])) = a :: (mid ++ [b]) := by
  unfold stripChars
  rw [List.dropWhile_cons, ha]
  simp only [Bool.false_eq_true, if_false, List.reverse_cons,
    List.reverse_append, List.reverse_cons, List.reverse_nil,
    List.nil_append, List.cons_append, List.singleton_append]
  rw [List.dropWhile_cons, hb]
  simp

/-- Stripping absorbs one layer of newline padding. -/
theorem stripChars_pad (l : List Char) :
    stripChars ('\n' :: (l ++ ['\n'])) = stripChars l := by
  unfold stripChars
  rw [List.dropWhile_cons, if_pos (by decide), List.dropWhile_append]
  split
  next hemp =>
    have h0 : l.dropWhile Char.isWhitespace = [] := by
      simpa using hemp
    rw [h0]
    simp [show List.dropWhile Char.isWhitespace ['\n'] = [] from by decide]
  next hemp =>
    rw [List.reverse_append]
    simp only [List.reverse_cons, List.reverse_nil, List.nil_append,
      List.singleton_append]
    rw [List.dropWhile_cons, if_pos (by decide)]

/-- The backtick is not a newline. -/
theorem backtick_beq_newline : (backtick == '\n') = false := by decide

/-- The fenced wrapping of a payload is already stripped (it starts and
ends with a backtick). -/
theorem stripChars_wrapJson (s : List Char) :
    stripChars (wrapJson s) = wrapJson s := by
  have hshape : wrapJson s =
      backtick :: ((backtick :: backtick :: 'j' :: 's' :: 'o' :: 'n' ::
        '\n' :: (s ++ ['\n', backtick, backtick])) ++ [backtick]) := by
    rw [wrapJson, jsonFenceChars_cons, fenceChars_cons]
    simp
  rw [hshape]
  exact stripChars_of_ends backtick backtick (by decide) (by decide) _

/-- The labeled fence is found at position 0 of the wrapped text. -/
theorem pyFind_wrapJson_jsonFence (s : List Char) :
    pyFind (wrapJson s) jsonFenceChars = 0 := by
  have hcons : wrapJson s = backtick ::
      (backtick :: backtick :: 'j' :: 's' :: 'o' :: 'n' ::
        ('\n' :: s ++ '\n' :: fenceChars)) := by
    rw [wrapJson, jsonFenceChars_cons]
    simp
  have hpre : jsonFenceChars.isPrefixOf (wrapJson s) = true := by
    rw [List.isPrefixOf_iff_prefix, wrapJson]
    exact List.prefix_append _ _
  rw [hcons] at hpre
  rw [pyFind, pyFindFrom, List.drop_zero, hcons]
  unfold findAux
  rw [hpre]
  simp

/-- If the payload contains no plain fence, no position of the padded
payload `"\n" + s + "\n"` starts a fence occurrence, not even straddling
into the closing fence that follows it. -/
theorem no_fence_in_padding (s : List Char)
    (hs : findAux fenceChars s 0 = none) :
    ∀ j, j < ('\n' :: (s ++ ['\n'])).length →
    fenceChars.isPrefixOf
      (('\n' :: (s ++ ['\n'])).drop j ++ fenceChars) = false := by
  intro j hj
  cases j with
  | zero =>
    rw [List.drop_zero]
    simp [fenceChars_cons, List.isPrefixOf, backtick_beq_newline]
  | succ j' =>
    have hj' : j' ≤ s.length := by
      simp only [List.length_cons, List.length_append, List.length_nil]
        at hj
      omega
    have hdrop : (('\n' :: (s ++ ['\n'])).drop (j' + 1)) =
        s.drop j' ++ ['\n'] := by
      simp only [List.drop_succ_cons]
      exact List.drop_append_of_le_length hj'
    rw [hdrop]
    have hocc := findAux_eq_none fenceChars s 0 hs j'
    cases hv : s.drop j' with
    | nil =>
      simp [fenceChars_cons, List.isPrefixOf, backtick_beq_newline]
    | cons a v1 =>
      cases v1 with
      | nil =>
        simp [fenceChars_cons, List.isPrefixOf, backtick_beq_newline]
      | cons b v2 =>
        cases v2 with
        | nil =>
          simp [fenceChars_cons, List.isPrefixOf, backtick_beq_newline]
        | cons c rest =>
          rw [hv] at hocc
          simp only [fenceChars_cons, List.isPrefixOf, List.cons_append,
            List.append_assoc] at hocc ⊢
          simpa using hocc

/-- The closing fence of the wrapped text is found at position
`s.length + 9`, the first scan position after the payload. -/
theorem pyFindFrom_wrapJson_close (s : List Char)
    (hs : findAux fenceChars s 0 = none) :
    pyFindFrom (wrapJson s) fenceChars 7 = ((s.length + 9 : Nat) : Int) := by
  have hdrop7 : (wrapJson s).drop 7 = '\n' :: s ++ '\n' :: fenceChars := by
    rw [wrapJson]
    exact List.drop_left' (show jsonFenceChars.length = 7 from by decide)
  have hsplit : ('\n' :: s ++ '\n' :: fenceChars : List Char) =
      ('\n' :: (s ++ ['\n'])) ++ fenceChars := by simp
  rw [pyFindFrom, hdrop7, hsplit,
    findAux_append fenceChars fenceChars _ 0 (no_fence_in_padding s hs)]
  have hself : fenceChars.isPrefixOf fenceChars = true := by decide
  rw [fenceChars_cons] at hself
  conv =>
    lhs
    rw [fenceChars_cons]
  unfold findAux
  rw [hself]
  simp only [if_true, List.length_cons, List.length_append,
    List.length_singleton]
  norm_num
  omega

/-- The extracted interior of the wrapped text is the padded payload. -/
theorem pySlice_wrapJson (s : List Char) :
    pySlice (wrapJson s) 7 (s.length + 9) = '\n' :: (s ++ ['\n']) := by
  have h1 : wrapJson s =
      (jsonFenceChars ++ '\n' :: (s ++ ['\n'])) ++ fenceChars := by
    rw [wrapJson]
    simp
  have hlen : (jsonFenceChars ++ '\n' :: (s ++ ['\n'])).length =
      s.length + 9 := by
    simp only [List.length_append, List.length_cons, List.length_nil,
      show jsonFenceChars.length = 7 from by decide]
    omega
  rw [pySlice, h1, List.take_left' hlen,
    List.drop_left' (show jsonFenceChars.length = 7 from by decide)]

/-- C6 (amended): (a) a payload wrapped in a labeled `"```json"` fence
validates identically to the bare payload, whenever the direct parse of the
fenced text fails, the payload parses (also after stripping), and the
payload contains no fence; (b) a result that is not valid always carries an
error — the validator never fails silently; (c) when the direct parse fails
and the stripped text contains no fence at all, the error carries the
truncated 200-character excerpt of the raw text. -/
theorem json_extraction_validator :
    (∀ (J C : Type) (parse : List Char → Option J)
        (schema : J → Except SchemaErr C) (s : List Char) (j : J),
      parse (wrapJson s) = none →
      parse s = some j →
      parse (stripChars s) = some j →
      findAux fenceChars s 0 = none →
      validate_json_output parse schema (wrapJson s) =
        validate_json_output parse schema s) ∧
    (∀ (J C : Type) (parse : List Char → Option J)
        (schema : J → Except SchemaErr C) (output : List Char),
      (validate_json_output parse schema output).valid = false →
      (validate_json_output parse schema output).error ≠ none) ∧
    (∀ (J C : Type) (parse : List Char → Option J)
        (schema : J → Except SchemaErr C) (output : List Char),
      parse output = none →
      pyContains (stripChars output) jsonFenceChars = false →
      pyContains (stripChars output) fenceChars = false →
      validate_json_output parse schema output =
        ⟨false, none, some (.invalidJson (output.take 200)), false⟩) := by
  refine ⟨?_, ?_, ?_⟩
  · intro J C parse schema s j hwrap hbare hstrip hnofence
    have hcont : pyContains (wrapJson s) jsonFenceChars = true := by
      rw [pyContains, pyFind_wrapJson_jsonFence]
      rfl
    have hne : (((s.length + 9 : Nat) : Int)) ≠ -1 := by omega
    simp only [validate_json_output, hwrap, hbare, stripChars_wrapJson,
      hcont, if_true, pyFind_wrapJson_jsonFence,
      pyFindFrom_wrapJson_close s hnofence, Int.toNat_zero, Nat.zero_add,
      hne, ne_eq, not_false_eq_true, Int.toNat_natCast, pySlice_wrapJson,
      stripChars_pad, hstrip]
  · intro J C parse schema output
    unfold validate_json_output
    cases hp : parse output with
    | some d =>
      unfold finishParse
      cases hs : schema d with
      | ok c => simp [hs]
      | error se => cases se <;> simp [hs]
    | none =>
      by_cases h1 : pyContains (stripChars output) jsonFenceChars = true
      · rw [if_pos h1]
        by_cases h2 : pyFindFrom (stripChars output) fenceChars
            ((pyFind (stripChars output) jsonFenceChars).toNat + 7) = -1
        · rw [if_neg (not_not_intro h2)]
          simp
        · rw [if_pos h2]
          cases hp2 : parse (stripChars (pySlice (stripChars output)
              ((pyFind (stripChars output) jsonFenceChars).toNat + 7)
              (pyFindFrom (stripChars output) fenceChars
                ((pyFind (stripChars output) jsonFenceChars).toNat
                  + 7)).toNat)) with
          | some d2 =>
            unfold finishParse
            cases hs2 : schema d2 with
            | ok c => simp [hs2]
            | error se => cases se <;> simp [hs2]
          | none => simp
      · rw [if_neg h1]
        by_cases h3 : pyContains (stripChars output) fenceChars = true
        · rw [if_pos h3]
          by_cases h4 : pyFindFrom (stripChars output) fenceChars
              ((pyFind (stripChars output) fenceChars).toNat + 3) = -1
          · rw [if_neg (not_not_intro h4)]
            simp
          · rw [if_pos h4]
            cases hp2 : parse (stripChars (pySlice (stripChars output)
                ((pyFind (stripChars output) fenceChars).toNat + 3)
                (pyFindFrom (stripChars output) fenceChars
                  ((pyFind (stripChars output) fenceChars).toNat
                    + 3)).toNat)) with
            | some d2 =>
              unfold finishParse
              cases hs2 : schema d2 with
              | ok c => simp [hs2]
              | error se => cases se <;> simp [hs2]
            | none => simp
        · rw [if_neg h3]
          simp
  · intro J C parse schema output hp hnj hnf
    unfold validate_json_output
    rw [hp]
    simp only [hnj, hnf, Bool.false_eq_true, if_false]

/-- Counterexample for C6 as stated: a labeled fence with no closing fence
yields no parseable JSON under any strategy, yet the reported error is the
fence-specific message, which carries no excerpt of the raw text. -/
theorem json_extraction_counterexample :
    validate_json_output (fun _ => (none : Option Unit))
      (fun _ => (Except.error SchemaErr.other : Except SchemaErr Unit))
      ("```json\nnot json".data) =
      ⟨false, none, some .noClosingJsonFence, false⟩ ∧
    (validate_json_output (fun _ => (none : Option Unit))
      (fun _ => (Except.error SchemaErr.other : Except SchemaErr Unit))
      ("```json\nnot json".data)).error ≠
      some (.invalidJson (("```json\nnot json".data).take 200)) := by
  constructor
  · decide
  · decide

/-- Witness for C6: the payload `"null"` wrapped in a labeled fence
validates exactly like bare `"null"`; non-JSON garbage without any fence
reports the `Invalid JSON` error carrying the raw text, not silence. -/
theorem json_extraction_validator_witness :
    validate_json_output
        (fun cs => if cs = "null".data then some () else none)
        (fun _ => (Except.ok 0 : Except SchemaErr Nat))
        (wrapJson ("null".data)) =
      validate_json_output
        (fun cs => if cs = "null".data then some () else none)
        (fun _ => (Except.ok 0 : Except SchemaErr Nat)) ("null".data) ∧
    validate_json_output
        (fun cs => if cs = "null".data then some () else none)
        (fun _ => (Except.ok 0 : Except SchemaErr Nat)) ("null".data) =
      ⟨true, some 0, none, true⟩ ∧
    validate_json_output
        (fun cs => if cs = "null".data then some () else none)
        (fun _ => (Except.ok 0 : Except SchemaErr Nat)) ("garbage".data) =
      ⟨false, none, some (.invalidJson ("garbage".data)), false⟩ ∧
    (validate_json_output
        (fun cs => if cs = "null".data then some () else none)
        (fun _ => (Except.ok 0 : Except SchemaErr Nat))
        ("garbage".data)).error ≠ none := by
  have h := json_extraction_validator
  have hc := h.2.2 Unit Nat
    (fun cs => if cs = "null".data then some () else none)
    (fun _ => (Except.ok 0 : Except SchemaErr Nat)) ("garbage".data)
    (by decide) (by decide) (by decide)
  refine ⟨h.1 Unit Nat
    (fun cs => if cs = "null".data then some () else none)
    (fun _ => (Except.ok 0 : Except SchemaErr Nat)) ("null".data) ()
    (by decide) (by decide) (by decide) (by decide), by decide, ?_, ?_⟩
  · rw [hc]
    decide
  · exact h.2.1 Unit Nat
      (fun cs => if cs = "null".data then some () else none)
      (fun _ => (Except.ok 0 : Except SchemaErr Nat)) ("garbage".data)
      (by decide)

/-- `BloomLevel` (`models.py`): the six cognitive levels. -/
inductive BloomLevel where
  | remember
  | understand
  | apply
  | analyze
  | evaluate
  | create
deriving DecidableEq, Repr

/-- The `.value` string of a `BloomLevel` member. -/
def BloomLevel.value : BloomLevel → String
  | .remember => "Remember"
  | .understand => "Understand"
  | .apply => "Apply"
  | .analyze => "Analyze"
  | .evaluate => "Evaluate"
  | .create => "Create"

/-- `LearningObjective` (`models.py`). -/
structure LearningObjective where
  id : String
  verb : String
  content : String
  level : BloomLevel
deriving DecidableEq, Repr

/-- `CourseStructure` (`models.py`): topic and objectives. -/
structure CourseStructure where
  topic : String
  objectives : List LearningObjective
deriving DecidableEq, Repr

/-- Exceptions the architect path may raise: the `AssertionError` of
`_validate_blooms_verbs` (carrying one entry per failing objective,
abstracted to its id), the count-mismatch `ValueError`
("Expected n objectives, got m"), and any exception propagating from the
underlying `super().forward()` LLM call. -/
inductive ArchError where
  | assertionError (failing : List String)
  | valueErrorExpectedGot (expected got : Nat)
  | predictionError
deriving DecidableEq, Repr

/-- `Architect._validate_blooms_verbs`: collect one error per objective
whose verb is not approved for its level (via
`BloomsTaxonomy.validate_verb`). -/
def validate_blooms_verbs (cs : CourseStructure) : List String :=
  cs.objectives.filterMap fun o =>
    if validate_verb o.verb o.level.value then none else some o.id

/-- `Architect._generate_once`: one generation attempt — take the LLM
prediction (already coerced to `CourseStructure`), raise `AssertionError`
if any verb fails Bloom validation, then raise `ValueError` if the
objective count differs from the request, else return the prediction. -/
def Architect.generate_once (pred : Except Unit CourseStructure)
    (num_objectives : Nat) : Except ArchError CourseStructure :=
  match pred with
  | .error _ => .error .predictionError
  | .ok cs =>
    if validate_blooms_verbs cs ≠ [] then
      .error (.assertionError (validate_blooms_verbs cs))
    else if cs.objectives.length ≠ num_objectives then
      .error (.valueErrorExpectedGot num_objectives cs.objectives.length)
    else .ok cs

/-- `Architect.forward` (`architect.py:123`): despite its docstring
("with retry via decorator", "Uses centralized retry logic with
exponential backoff") the body calls `_generate_once` exactly once —
`retry_with_exponential_backoff` is imported at `architect.py:22` but
never applied.  The backend is the outcome of the i-th LLM invocation;
`forward` consumes invocation 0 only.  Returns the result and the number
of LLM invocations performed. -/
def Architect.forward (backend : Nat → Except Unit CourseStructure)
    (num_objectives : Nat) : Except ArchError CourseStructure × Nat :=
  (Architect.generate_once (backend 0) num_objectives, 1)

/-- `Architect.generate_objectives`: `forward`, then return the contained
`CourseStructure`. -/
def Architect.generate_objectives
    (backend : Nat → Except Unit CourseStructure) (num_objectives : Nat) :
    Except ArchError CourseStructure × Nat :=
  Architect.forward backend num_objectives

/-- C1 (code evaluated at the failing input): with a backend returning on
every attempt a single approved-verb objective when 3 were requested,
`generate_objectives` performs exactly one LLM invocation and raises the
count-mismatch `ValueError` ("Expected 3 objectives, got 1") — it does not
retry and no retries-exhausted error is ever produced; and the part of the
claim the code does satisfy: a returned `CourseStructure` always carries
exactly the requested number of objectives. -/
theorem architect_count_mismatch_no_retry :
    Architect.generate_objectives
      (fun _ => Except.ok ⟨"Intro to Python",
        [⟨"LO-001", "define", "lists", BloomLevel.remember⟩]⟩) 3 =
      (Except.error (ArchError.valueErrorExpectedGot 3 1), 1) ∧
    (∀ (backend : Nat → Except Unit CourseStructure) (n : Nat)
        (cs : CourseStructure),
      (Architect.generate_objectives backend n).1 = Except.ok cs →
      cs.objectives.length = n) := by
  constructor
  · rfl
  · intro backend n cs h
    unfold Architect.generate_objectives Architect.forward
      Architect.generate_once at h
    cases hb : backend 0 with
    | error e => rw [hb] at h; cases h
    | ok pcs =>
      rw [hb] at h
      dsimp only at h
      split at h
      · cases h
      · split at h
        next hcount => cases h
        next hcount =>
          rw [Except.ok.injEq] at h
          subst h
          omega

/-- Witness for the count-invariant half of the C1 theorem: a backend
returning exactly one approved objective when one is requested yields a
`CourseStructure` with exactly one objective. -/
theorem architect_count_mismatch_no_retry_witness :
    (Architect.generate_objectives
      (fun _ => Except.ok ⟨"Intro to Python",
        [⟨"LO-001", "define", "lists", BloomLevel.remember⟩]⟩) 1).1 =
      Except.ok (⟨"Intro to Python",
        [⟨"LO-001", "define", "lists", BloomLevel.remember⟩]⟩ :
          CourseStructure) ∧
    (⟨"Intro to Python",
      [⟨"LO-001", "define", "lists", BloomLevel.remember⟩]⟩ :
        CourseStructure).objectives.length = 1 := by
  have hok : (Architect.generate_objectives
      (fun _ => Except.ok ⟨"Intro to Python",
        [⟨"LO-001", "define", "lists", BloomLevel.remember⟩]⟩) 1).1 =
      Except.ok (⟨"Intro to Python",
        [⟨"LO-001", "define", "lists", BloomLevel.remember⟩]⟩ :
          CourseStructure) := by rfl
  exact ⟨hok, architect_count_mismatch_no_retry.2
    (fun _ => Except.ok ⟨"Intro to Python",
      [⟨"LO-001", "define", "lists", BloomLevel.remember⟩]⟩) 1
    ⟨"Intro to Python",
      [⟨"LO-001", "define", "lists", BloomLevel.remember⟩]⟩ hok⟩
